import Mathlib

/-!
Logger configuration of kamuy-backed.

A shallow embedding of the logger configuration code of the repository
(`util/logger.go`, `app/logger.go`, `app/logger/zap/zap.go`, `main.go`) and the
properties proved about it.

Go strings are modelled by `String` (valid UTF-8 text), Go `int` by `Int`, and the
8-bit `zapcore.Level` by `Int` together with the explicit conversion `int8`.
A Go `error` is modelled by `Option String` (`none` is `nil`), and a function
returning `(T, error)` by `Except String T`.
-/

set_option autoImplicit false

namespace Kamuy

/-! ## Go primitives and standard library -/

/-- Go conversion `int8(n)` of an integer: truncation to 8 bits, two's complement. -/
def int8 (n : Int) : Int := (n + 128) % 256 - 128

/-- ASCII lower-casing of one character, the byte loop of `strings.ToLower`:
`'A'..'Z'` are shifted by `'a' - 'A'`, every other character is kept. -/
def strings.lowerASCII (c : Char) : Char :=
  if 65 ≤ c.toNat ∧ c.toNat ≤ 90 then Char.ofNat (c.toNat + 32) else c

/-- Go `strings.ToLower`. A string made of ASCII characters only is returned as it is
when it has no upper-case letter and is lower-cased bytewise otherwise; any other string
is mapped rune by rune through `unicode.ToLower`, whose table is the parameter
`unicodeToLower`. -/
def strings.ToLower (unicodeToLower : Char → Char) (s : String) : String :=
  if s.data.all (fun c => decide (c.toNat < 128)) then
    if s.data.any (fun c => decide (65 ≤ c.toNat ∧ c.toNat ≤ 90)) then
      String.mk (s.data.map strings.lowerASCII)
    else s
  else String.mk (s.data.map unicodeToLower)

/-- Value of a string of decimal digits read left to right from the accumulator `acc`;
`none` when a character is not one of `'0'..'9'` (the digit loop of `strconv.ParseUint`
in base 10). -/
def strconv.digits : List Char → Nat → Option Nat
  | [], acc => some acc
  | c :: cs, acc =>
    if 48 ≤ c.toNat ∧ c.toNat ≤ 57 then strconv.digits cs (acc * 10 + (c.toNat - 48))
    else none

/-- Go `strconv.Atoi` on a platform with 64-bit `int`: an optional sign followed by one
or more decimal digits, with the value in `-2^63 .. 2^63 - 1`; `none` stands for a
returned error (syntax or range). -/
def strconv.Atoi (s : String) : Option Int :=
  let body (neg : Bool) (ds : List Char) : Option Int :=
    match ds with
    | [] => none
    | _ :: _ =>
      match strconv.digits ds 0 with
      | none => none
      | some n =>
        if neg then (if n ≤ 2 ^ 63 then some (-(n : Int)) else none)
        else (if n < 2 ^ 63 then some (n : Int) else none)
  match s.data with
  | [] => none
  | c :: cs =>
    if c = '-' then body true cs
    else if c = '+' then body false cs
    else body false (c :: cs)

/-! ## The logging sink (`go.uber.org/zap`, `go.uber.org/zap/zapcore`)

The sink is an external library. Only the data the repository's code reads or writes
is modelled: levels, the level encoder, the encoder configuration, the build
configuration, entries and build options. -/

/-- Go `zapcore.Level`, an `int8`. -/
abbrev zapcore.Level := Int

/-- Level constants of `zapcore` (`level.go`): `DebugLevel Level = iota - 1` and the six
constants after it. -/
def zapcore.DebugLevel : zapcore.Level := 0 - 1
def zapcore.InfoLevel : zapcore.Level := 1 - 1
def zapcore.WarnLevel : zapcore.Level := 2 - 1
def zapcore.ErrorLevel : zapcore.Level := 3 - 1
def zapcore.DPanicLevel : zapcore.Level := 4 - 1
def zapcore.PanicLevel : zapcore.Level := 5 - 1
def zapcore.FatalLevel : zapcore.Level := 6 - 1

/-- Go `Level.Enabled` of `zapcore`: a threshold `l` lets the level `lvl` through when
`lvl >= l`. -/
def zapcore.Level.Enabled (l lvl : zapcore.Level) : Bool := decide (lvl ≥ l)

/-- The two level encoders the repository selects between. -/
inductive zapcore.LevelEncoder
  | CapitalLevelEncoder
  | CapitalColorLevelEncoder
  deriving DecidableEq, Repr

/-- Fields of `zapcore.EncoderConfig` that the repository sets. The time, duration and
caller encoders are set once to fixed values and never changed, so only the level encoder
is kept of the encoder functions. -/
structure zapcore.EncoderConfig where
  TimeKey : String
  LevelKey : String
  CallerKey : String
  MessageKey : String
  StacktraceKey : String
  EncodeLevel : zapcore.LevelEncoder
  deriving DecidableEq, Repr

/-- Fields of `zapcore.Entry` read by the repository. -/
structure zapcore.Entry where
  Level : zapcore.Level
  Message : String
  deriving DecidableEq, Repr

/-- Go `zap.Config`, with `Level` holding the value of the `AtomicLevel`. -/
structure zap.Config where
  Level : zapcore.Level
  Development : Bool
  Encoding : String
  OutputPaths : List String
  ErrorOutputPaths : List String
  EncoderConfig : zapcore.EncoderConfig
  deriving DecidableEq, Repr

/-- Go `bugsnag.HandledState`. -/
structure bugsnag.HandledState where
  SeverityReason : String
  OriginalSeverity : String
  Unhandled : Bool
  Framework : String
  deriving DecidableEq, Repr

/-- Constant `bugsnag.SeverityReasonHandledError`. -/
def bugsnag.SeverityReasonHandledError : String := "handledError"

/-- Constant `bugsnag.SeverityError`, by its name. -/
def bugsnag.SeverityError : String := "error"

/-- One call of `notifier.Notify(err, state)`: the message of the error passed and the
handled state. -/
structure bugsnag.NotifyCall where
  err : String
  state : bugsnag.HandledState
  deriving DecidableEq, Repr

/-- The external notifier: the error (or `none`) that its `Notify` returns for a call. -/
abbrev bugsnag.Notifier := bugsnag.NotifyCall → Option String

/-- A hook `func(zapcore.Entry) error`. Its effect on the notifier is explicit: it takes
the calls made to the notifier so far and returns the error together with the calls made
after it ran. -/
abbrev zap.Hook := zapcore.Entry → List bugsnag.NotifyCall → Option String × List bugsnag.NotifyCall

/-- The build options (`zap.Option`) the repository creates. -/
inductive zap.Option
  | AddStacktrace (lvl : zapcore.Level)
  | AddCaller
  | AddCallerSkip (skip : Int)
  | Hooks (f : zap.Hook)

/-- Go `zap.NewAtomicLevelAt(l)`, by the level it holds. -/
def zap.NewAtomicLevelAt (l : zapcore.Level) : zapcore.Level := l

/-! ## `util/logger.go`: levels, encodings and the environment profile -/

namespace util

/-- Go `type LoggingEncode string`. -/
abbrev LoggingEncode := String

/-- Go `type LoggingLevel int`. -/
abbrev LoggingLevel := Int

def LoggingEncodeJSON : LoggingEncode := "json"
def LoggingEncodeConsole : LoggingEncode := "console"

/-- Constant `iota - 1` at `iota = 0`. -/
def LoggingLevelDebug : LoggingLevel := 0 - 1
/-- Constant `iota - 1` at `iota = 1`. -/
def LoggingLevelInfo : LoggingLevel := 1 - 1
/-- Constant `iota - 1` at `iota = 2`. -/
def LoggingLevelWarn : LoggingLevel := 2 - 1
/-- Constant `iota - 1` at `iota = 3`. -/
def LoggingLevelError : LoggingLevel := 3 - 1
/-- Constant `iota - 1` at `iota = 4`. -/
def LoggingLevelFatal : LoggingLevel := 4 - 1


/-- Go `toZapLevel`: `zap.NewAtomicLevelAt(zapcore.Level(int8(level)))`. -/
def toZapLevel (level : LoggingLevel) : zapcore.Level :=
  zap.NewAtomicLevelAt (int8 level)

/-- Go `type LoggerOption func(*zap.Config, *[]zap.Option) error`: the two pointees are
passed in and returned; an error is `Except.error`. -/
abbrev LoggerOption :=
  zap.Config × List zap.Option → Except String (zap.Config × List zap.Option)

/-- Go `WithLoggingLevel`. -/
def WithLoggingLevel (level : LoggingLevel) : LoggerOption :=
  fun (cfg, opts) => .ok ({ cfg with Level := toZapLevel level }, opts)

/-- Go `WithEncoded`. -/
def WithEncoded (encode : LoggingEncode) : LoggerOption :=
  fun (cfg, opts) => .ok ({ cfg with Encoding := encode }, opts)

/-- Go `WithColor`. -/
def WithColor (color : Bool) : LoggerOption :=
  fun (cfg, opts) =>
    if color then
      .ok ({ cfg with EncoderConfig :=
              { cfg.EncoderConfig with EncodeLevel := .CapitalColorLevelEncoder } }, opts)
    else .ok (cfg, opts)

/-- Go `WithAddStacktrace`. -/
def WithAddStacktrace (level : LoggingLevel) : LoggerOption :=
  fun (cfg, opts) => .ok (cfg, opts ++ [zap.Option.AddStacktrace (toZapLevel level)])

/-- Go `WithAddCaller`. -/
def WithAddCaller (skip : Int) : LoggerOption :=
  fun (cfg, opts) => .ok (cfg, (opts ++ [zap.Option.AddCaller]) ++ [zap.Option.AddCallerSkip skip])

/-- Go `withCallback`. -/
def withCallback (f : zap.Hook) : LoggerOption :=
  fun (cfg, opts) => .ok (cfg, opts ++ [zap.Option.Hooks f])

/-- The closure `cb` of Go `WithBugsnagNotify`, over the package variable `notifier`:
with `l := zapcore.Level(level)`, an entry of level at least `l` is passed to
`notifier.Notify` and the result of that call is returned; any other entry returns
`nil`. -/
def WithBugsnagNotify.cb (notifier : bugsnag.Notifier) (level : LoggingLevel) : zap.Hook :=
  let l : zapcore.Level := int8 level
  fun entry calls =>
    if entry.Level ≥ l then
      let call : bugsnag.NotifyCall :=
        { err := entry.Message
          state :=
            { SeverityReason := bugsnag.SeverityReasonHandledError
              OriginalSeverity := bugsnag.SeverityError
              Unhandled := false
              Framework := "Gin" } }
      (notifier call, calls ++ [call])
    else (none, calls)

/-- Go `WithBugsnagNotify`. -/
def WithBugsnagNotify (notifier : bugsnag.Notifier) (level : LoggingLevel) : LoggerOption :=
  withCallback (WithBugsnagNotify.cb notifier level)

/-- The configuration `NewLogger` starts from. -/
def NewLogger.cfg : zap.Config :=
  { Level := zap.NewAtomicLevelAt (int8 (-1))
    Development := true
    Encoding := "console"
    OutputPaths := ["stdout"]
    ErrorOutputPaths := ["stderr"]
    EncoderConfig :=
      { TimeKey := "timelocal"
        LevelKey := "level"
        CallerKey := "caller"
        MessageKey := "msg"
        StacktraceKey := "stack"
        EncodeLevel := .CapitalLevelEncoder } }

/-- The option loop of Go `NewLogger`: the options are applied in order to the
configuration and the (initially empty) build options; the first error is returned. -/
def NewLogger.loop :
    List LoggerOption → zap.Config × List zap.Option → Except String (zap.Config × List zap.Option)
  | [], st => .ok st
  | opt :: rest, st =>
    match opt st with
    | .error err => .error err
    | .ok st1 => NewLogger.loop rest st1

/-- Go `NewLogger`. The sink's `cfg.Build(buildOpts...)` is the parameter `Build`. -/
def NewLogger {L : Type} (Build : zap.Config → List zap.Option → Except String L)
    (options : List LoggerOption) : Except String L :=
  match NewLogger.loop options (NewLogger.cfg, []) with
  | .error err => .error err
  | .ok (cfg, buildOpts) =>
    match Build cfg buildOpts with
    | .error err => .error err
    | .ok logger => .ok logger

/-- Go `LoggingConfig(appEnv)`: the basic logging configuration of an app environment,
a switch over the lower-cased name. -/
def LoggingConfig (unicodeToLower : Char → Char) (appEnv : String) :
    LoggingLevel × LoggingEncode × Bool :=
  let v := strings.ToLower unicodeToLower appEnv
  if v = "dev" ∨ v = "development" then (LoggingLevelDebug, LoggingEncodeConsole, true)
  else if v = "stg" ∨ v = "staging" then (LoggingLevelDebug, LoggingEncodeJSON, false)
  else if v = "prod" ∨ v = "production" then (LoggingLevelInfo, LoggingEncodeJSON, false)
  else (LoggingLevelDebug, LoggingEncodeJSON, false)


/-- The level, encoding and colour flag that Go `init` of `util/logger.go` computes from
`infra.EnvMan.AppEnv` and `infra.EnvMan.ZapLevel` before it calls `NewLogger`. -/
def init.settings (unicodeToLower : Char → Char) (AppEnv ZapLevel : String) :
    LoggingLevel × LoggingEncode × Bool :=
  let (level, encode, color) := LoggingConfig unicodeToLower AppEnv
  let level :=
    if ZapLevel ≠ "" then
      match strconv.Atoi ZapLevel with
      | some l => l
      | none => level
    else level
  (level, encode, color)

/-- The options Go `init` passes to `NewLogger` (the bugsnag option is commented out in
the source). -/
def init.options (unicodeToLower : Char → Char) (AppEnv ZapLevel : String) : List LoggerOption :=
  let (level, encode, color) := init.settings unicodeToLower AppEnv ZapLevel
  [WithLoggingLevel level, WithEncoded encode, WithColor color,
   WithAddStacktrace LoggingLevelError, WithAddCaller 0]

/-- Go `init` of `util/logger.go` up to the construction of the logger (a construction
error makes the program panic). -/
def init {L : Type} (Build : zap.Config → List zap.Option → Except String L)
    (unicodeToLower : Char → Char) (AppEnv ZapLevel : String) : Except String L :=
  NewLogger Build (init.options unicodeToLower AppEnv ZapLevel)

end util

/-! ## `app/app.go`, `app/logger.go`: the app environment and the logger configuration -/

/-- A value of the interface `io.Writer` other than `nil`, by a handle. -/
inductive io.Writer
  | Stdout
  | Other (id : Nat)
  deriving DecidableEq, Repr

namespace app

/-- Go `type EnvType string`. -/
abbrev EnvType := String

def EnvDevelopment : EnvType := "development"
def EnvProto : EnvType := "proto"

/-- The package variable `env` of `app`, initially `EnvDevelopment`. -/
structure State where
  env : EnvType := EnvDevelopment
  deriving DecidableEq, Repr

/-- Go `app.Env()`. -/
def Env (st : State) : EnvType := st.env

/-- Go `app.SetEnv(e)`. -/
def SetEnv (e : EnvType) (_st : State) : State := { env := e }

/-- Go `type LoggingLevel int` of package `app`. -/
abbrev LoggingLevel := Int

/-- Constant `iota - 1` at `iota = 0`. -/
def LoggingLvlDebug : LoggingLevel := 0 - 1
/-- Constant `iota - 1` at `iota = 1`. -/
def LoggingLvlInfo : LoggingLevel := 1 - 1
/-- Constant `iota - 1` at `iota = 2`. -/
def LoggingLvlError : LoggingLevel := 2 - 1

/-- Go `type LoggingEncode string` of package `app`. -/
abbrev LoggingEncode := String

def LoggingEncJSON : LoggingEncode := "json"
def LoggingEncText : LoggingEncode := "text"
def LoggingEncColorText : LoggingEncode := "color"

/-- Go `app.LoggerConfig`; `Out = none` is the `nil` writer. The zero value is the
default of every field. -/
structure LoggerConfig where
  LoggingLevel : LoggingLevel := 0
  LoggingEncode : LoggingEncode := ""
  Out : Option io.Writer := none
  NoTimestamp : Bool := false
  deriving DecidableEq, Repr

end app

/-! ## `app/logger/zap/zap.go`: the app logger builder -/

/-- An encoder made by `zapcore.NewJSONEncoder` or `zapcore.NewConsoleEncoder`. -/
inductive zapcore.Encoder
  | JSON (cfg : zapcore.EncoderConfig)
  | Console (cfg : zapcore.EncoderConfig)
  deriving DecidableEq, Repr

/-- A core made by `zapcore.NewCore(enc, zapcore.AddSync(out), level)`; `level = none`
is the zero `AtomicLevel`. -/
structure zapcore.Core where
  enc : zapcore.Encoder
  out : Option io.Writer
  level : Option zapcore.Level

/-- A logger made by `zap.New(core, options...)` of the sink library. -/
structure zap.Logger where
  core : zapcore.Core
  options : List zap.Option

namespace app.logger.zap

def encodeJSON : String := "json"
def encodeConsole : String := "console"

/-- Go `type config struct`; `level = none` is the zero `AtomicLevel`, `err = none` is
`nil`. -/
structure config where
  level : Option zapcore.Level
  encode : String
  encoderCfg : zapcore.EncoderConfig
  out : Option io.Writer
  err : Option String
  deriving DecidableEq, Repr

/-- Go `type Logger struct { z *zap.Logger }`. -/
structure Logger where
  z : Kamuy.zap.Logger

/-- The zero value `&config{}`. -/
def config.zero : config :=
  { level := none
    encode := ""
    encoderCfg :=
      { TimeKey := "", LevelKey := "", CallerKey := "", MessageKey := "", StacktraceKey := ""
        EncodeLevel := .CapitalLevelEncoder }
    out := none
    err := none }

/-- The first step of Go `newConfig`, the switch on the logging level. The message of the
default branch formats the constant `app.LoggingLvlDebug`, as the source does. -/
def newConfig.level (appCfg : app.LoggerConfig) (c : config) : config :=
  if appCfg.LoggingLevel = app.LoggingLvlDebug then
    { c with level := some (Kamuy.zap.NewAtomicLevelAt zapcore.DebugLevel) }
  else if appCfg.LoggingLevel = app.LoggingLvlInfo then
    { c with level := some (Kamuy.zap.NewAtomicLevelAt zapcore.InfoLevel) }
  else if appCfg.LoggingLevel = app.LoggingLvlError then
    { c with level := some (Kamuy.zap.NewAtomicLevelAt zapcore.ErrorLevel) }
  else
    { c with err := some ("unexpected logging level " ++ toString app.LoggingLvlDebug) }

/-- The second step of Go `newConfig`: the encoder configuration and the switch on the
encoding. -/
def newConfig.encode (appCfg : app.LoggerConfig) (c : config) : config :=
  let c : config :=
    { c with encoderCfg :=
        { TimeKey := "timelocal"
          LevelKey := "level"
          CallerKey := "caller"
          MessageKey := "msg"
          StacktraceKey := "stack"
          EncodeLevel := .CapitalLevelEncoder } }
  if appCfg.LoggingEncode = app.LoggingEncJSON then
    { c with encode := encodeJSON }
  else if appCfg.LoggingEncode = app.LoggingEncText then
    { c with encode := encodeConsole }
  else if appCfg.LoggingEncode = app.LoggingEncColorText then
    { c with
      encode := encodeConsole
      encoderCfg := { c.encoderCfg with EncodeLevel := .CapitalColorLevelEncoder } }
  else
    { c with err := some ("unexpected logging encode " ++ appCfg.LoggingEncode) }

/-- The third step of Go `newConfig`: the timestamp switch. -/
def newConfig.timestamp (appCfg : app.LoggerConfig) (c : config) : config :=
  if appCfg.NoTimestamp then { c with encoderCfg := { c.encoderCfg with TimeKey := "" } }
  else c

/-- The last step of Go `newConfig`: the output sink and its `nil` check. -/
def newConfig.out (appCfg : app.LoggerConfig) (c : config) : config :=
  let c : config := { c with out := appCfg.Out }
  if c.out = none then { c with err := some "app.LoggerConfig.Out should be not nil" }
  else c

/-- Go `newConfig`: the four steps in the order of the source, each overwriting the
fields it assigns. -/
def newConfig (appCfg : app.LoggerConfig) : config :=
  newConfig.out appCfg
    (newConfig.timestamp appCfg
      (newConfig.encode appCfg
        (newConfig.level appCfg config.zero)))

/-- Go `(*config).buildEncoder`. -/
def config.buildEncoder (c : config) : Except String zapcore.Encoder :=
  if c.encode = "json" then .ok (zapcore.Encoder.JSON c.encoderCfg)
  else if c.encode = "console" then .ok (zapcore.Encoder.Console c.encoderCfg)
  else .error ("unexpected logging encode " ++ c.encode)

/-- Go `(*config).options`. -/
def config.options (_c : config) : List Kamuy.zap.Option :=
  [Kamuy.zap.Option.AddCaller, Kamuy.zap.Option.AddCallerSkip 1]

/-- Go `(*config).build`. -/
def config.build (c : config) : Except String Logger :=
  match c.err with
  | some err => .error err
  | none =>
    match c.buildEncoder with
    | .error err => .error err
    | .ok encoder =>
      let core : zapcore.Core := { enc := encoder, out := c.out, level := c.level }
      .ok { z := { core := core, options := c.options } }

/-- Go `newLogger`. -/
def newLogger (c : app.LoggerConfig) : Except String Logger :=
  (newConfig c).build

/-- Go `New` of package `zap` of the repository. -/
def New (c : app.LoggerConfig) : Except String Logger :=
  newLogger c

end app.logger.zap

/-- Go `logger.New` of `app/logger/logger.go`. -/
def app.logger.New (c : app.LoggerConfig) : Except String app.logger.zap.Logger :=
  app.logger.zap.New c

/-! ## `main.go`: the entry point -/

namespace main

/-- Go `setEnv`, reading `infra.EnvMan.AppEnv`: `env` starts as the zero `EnvType` and is
set by a switch on the name as it is. -/
def setEnv (AppEnv : String) (st : app.State) : app.State :=
  let env : app.EnvType :=
    if AppEnv = "dev" ∨ AppEnv = "development" then app.EnvDevelopment
    else if AppEnv = "proto" then app.EnvProto
    else ""
  app.SetEnv env st

/-- The `app.LoggerConfig` that Go `getLogger` fills in before it calls `logger.New`. -/
def getLogger.cfg (st : app.State) : app.LoggerConfig :=
  let cfg : app.LoggerConfig := {}
  let cfg : app.LoggerConfig :=
    if app.Env st = app.EnvDevelopment then
      { cfg with LoggingLevel := app.LoggingLvlDebug, LoggingEncode := app.LoggingEncColorText }
    else
      { cfg with LoggingLevel := app.LoggingLvlInfo, LoggingEncode := app.LoggingEncJSON }
  { cfg with Out := some io.Writer.Stdout }

/-- Go `getLogger`; `Except.error` is the branch that prints the error and exits with
code 2. -/
def getLogger (st : app.State) : Except String app.logger.zap.Logger :=
  app.logger.New (getLogger.cfg st)

end main

/-! ## The checks of `newConfig` -/

/-- The level check of `newConfig` passes. -/
def app.LoggerConfig.levelKnown (c : app.LoggerConfig) : Prop :=
  c.LoggingLevel = app.LoggingLvlDebug ∨ c.LoggingLevel = app.LoggingLvlInfo
    ∨ c.LoggingLevel = app.LoggingLvlError

/-- The encoding check of `newConfig` passes. -/
def app.LoggerConfig.encodeKnown (c : app.LoggerConfig) : Prop :=
  c.LoggingEncode = app.LoggingEncJSON ∨ c.LoggingEncode = app.LoggingEncText
    ∨ c.LoggingEncode = app.LoggingEncColorText

instance (c : app.LoggerConfig) : Decidable c.levelKnown := by
  unfold app.LoggerConfig.levelKnown; infer_instance

instance (c : app.LoggerConfig) : Decidable c.encodeKnown := by
  unfold app.LoggerConfig.encodeKnown; infer_instance

/-! ## Reading results -/

/-- The error of a result, `none` when it is a value. -/
def errorOf {α : Type} : Except String α → Option String
  | .error err => some err
  | .ok _ => none

/-- The configuration of the state an option returns, `none` when the option failed. -/
def configOf : Except String (zap.Config × List zap.Option) → Option zap.Config
  | .error _ => none
  | .ok (cfg, _) => some cfg

/-! ## Sequences of built-in options -/

/-- The built-in options of `util/logger.go`, by name and argument. -/
inductive BuiltinOption
  | WithLoggingLevel (level : util.LoggingLevel)
  | WithEncoded (encode : util.LoggingEncode)
  | WithColor (color : Bool)
  | WithAddStacktrace (level : util.LoggingLevel)
  | WithAddCaller (skip : Int)
  | WithBugsnagNotify (level : util.LoggingLevel)
  deriving DecidableEq, Repr

/-- The `util.LoggerOption` a built-in option stands for. -/
def BuiltinOption.toLoggerOption (notifier : bugsnag.Notifier) : BuiltinOption → util.LoggerOption
  | .WithLoggingLevel level => util.WithLoggingLevel level
  | .WithEncoded encode => util.WithEncoded encode
  | .WithColor color => util.WithColor color
  | .WithAddStacktrace level => util.WithAddStacktrace level
  | .WithAddCaller skip => util.WithAddCaller skip
  | .WithBugsnagNotify level => util.WithBugsnagNotify notifier level

/-- The argument of the last `WithLoggingLevel` of a sequence, if there is one. -/
def lastLoggingLevel : List BuiltinOption → Option util.LoggingLevel
  | [] => none
  | o :: rest =>
    match lastLoggingLevel rest with
    | some level => some level
    | none =>
      match o with
      | .WithLoggingLevel level => some level
      | _ => none

/-- The argument of the last `WithEncoded` of a sequence, if there is one. -/
def lastEncoded : List BuiltinOption → Option util.LoggingEncode
  | [] => none
  | o :: rest =>
    match lastEncoded rest with
    | some encode => some encode
    | none =>
      match o with
      | .WithEncoded encode => some encode
      | _ => none

/-- The argument of the last `WithColor` of a sequence, if there is one. -/
def lastColor : List BuiltinOption → Option Bool
  | [] => none
  | o :: rest =>
    match lastColor rest with
    | some color => some color
    | none =>
      match o with
      | .WithColor color => some color
      | _ => none

/-- The configuration that `util.NewLogger` hands to the sink's `Build` for a sequence of
built-in options: `NewLogger` run with a `Build` that returns its configuration. -/
def builtConfig (notifier : bugsnag.Notifier) (seq : List BuiltinOption) : Option zap.Config :=
  match util.NewLogger (fun cfg _ => Except.ok cfg) (seq.map (BuiltinOption.toLoggerOption notifier)) with
  | .ok cfg => some cfg
  | .error _ => none

/-- The profile of `util.LoggingConfig` that a logger configuration of package `app`
stands for: the level constants are matched by name, "json" is JSON without colour,
"text" is console without colour and "color" is console with colour. -/
def profileOfLoggerConfig (cfg : app.LoggerConfig) :
    Option (util.LoggingLevel × util.LoggingEncode × Bool) :=
  let level : Option util.LoggingLevel :=
    if cfg.LoggingLevel = app.LoggingLvlDebug then some util.LoggingLevelDebug
    else if cfg.LoggingLevel = app.LoggingLvlInfo then some util.LoggingLevelInfo
    else if cfg.LoggingLevel = app.LoggingLvlError then some util.LoggingLevelError
    else none
  let encode : Option (util.LoggingEncode × Bool) :=
    if cfg.LoggingEncode = app.LoggingEncJSON then some (util.LoggingEncodeJSON, false)
    else if cfg.LoggingEncode = app.LoggingEncText then some (util.LoggingEncodeConsole, false)
    else if cfg.LoggingEncode = app.LoggingEncColorText then some (util.LoggingEncodeConsole, true)
    else none
  match level, encode with
  | some l, some (e, c) => some (l, e, c)
  | _, _ => none

/-! ## The environment profile (`util.LoggingConfig`) -/

theorem strings.lowerASCII_of_not_upper (c : Char) (h : ¬ (65 ≤ c.toNat ∧ c.toNat ≤ 90)) :
    strings.lowerASCII c = c := by
  simp [strings.lowerASCII, h]

theorem strings.map_lowerASCII_of_no_upper (cs : List Char)
    (h : cs.any (fun c => decide (65 ≤ c.toNat ∧ c.toNat ≤ 90)) = false) :
    cs.map strings.lowerASCII = cs := by
  induction cs with
  | nil => rfl
  | cons c cs ih =>
    simp only [List.any_cons, Bool.or_eq_false_iff, decide_eq_false_iff_not] at h
    simp only [List.map_cons, ih h.2, strings.lowerASCII_of_not_upper c h.1]

/-- On a string of ASCII characters `strings.ToLower` is the bytewise ASCII lower-casing,
whatever the Unicode table. -/
theorem strings.ToLower_of_ascii (unicodeToLower : Char → Char) (s : String)
    (h : s.data.all (fun c => decide (c.toNat < 128)) = true) :
    strings.ToLower unicodeToLower s = String.mk (s.data.map strings.lowerASCII) := by
  unfold strings.ToLower
  rw [if_pos h]
  by_cases hu : s.data.any (fun c => decide (65 ≤ c.toNat ∧ c.toNat ≤ 90)) = true
  · rw [if_pos hu]
  · rw [if_neg hu]
    have hu2 : s.data.any (fun c => decide (65 ≤ c.toNat ∧ c.toNat ≤ 90)) = false := by
      simpa using hu
    rw [strings.map_lowerASCII_of_no_upper s.data hu2]

/-- C1: `util.LoggingConfig` is a total function of the lower-cased environment name `v`:
(Debug, console, true) for "dev" and "development", (Debug, json, false) for "stg" and
"staging", (Info, json, false) for "prod" and "production", and (Debug, json, false) for
every other string, the empty string included. It is case-insensitive: two names with the
same lower-casing get the same profile, and so do two ASCII names that differ only in the
case of their letters. -/
theorem LoggingConfig_profile (unicodeToLower : Char → Char) (appEnv : String) :
    ((strings.ToLower unicodeToLower appEnv = "dev"
        ∨ strings.ToLower unicodeToLower appEnv = "development") →
      util.LoggingConfig unicodeToLower appEnv
        = (util.LoggingLevelDebug, util.LoggingEncodeConsole, true))
    ∧ ((strings.ToLower unicodeToLower appEnv = "stg"
        ∨ strings.ToLower unicodeToLower appEnv = "staging") →
      util.LoggingConfig unicodeToLower appEnv
        = (util.LoggingLevelDebug, util.LoggingEncodeJSON, false))
    ∧ ((strings.ToLower unicodeToLower appEnv = "prod"
        ∨ strings.ToLower unicodeToLower appEnv = "production") →
      util.LoggingConfig unicodeToLower appEnv
        = (util.LoggingLevelInfo, util.LoggingEncodeJSON, false))
    ∧ (¬ (strings.ToLower unicodeToLower appEnv = "dev"
          ∨ strings.ToLower unicodeToLower appEnv = "development"
          ∨ strings.ToLower unicodeToLower appEnv = "stg"
          ∨ strings.ToLower unicodeToLower appEnv = "staging"
          ∨ strings.ToLower unicodeToLower appEnv = "prod"
          ∨ strings.ToLower unicodeToLower appEnv = "production") →
      util.LoggingConfig unicodeToLower appEnv
        = (util.LoggingLevelDebug, util.LoggingEncodeJSON, false))
    ∧ util.LoggingConfig unicodeToLower ""
        = (util.LoggingLevelDebug, util.LoggingEncodeJSON, false)
    ∧ (∀ other : String,
        strings.ToLower unicodeToLower other = strings.ToLower unicodeToLower appEnv →
        util.LoggingConfig unicodeToLower other = util.LoggingConfig unicodeToLower appEnv)
    ∧ (∀ other : String,
        appEnv.data.all (fun c => decide (c.toNat < 128)) = true →
        other.data.all (fun c => decide (c.toNat < 128)) = true →
        other.data.map strings.lowerASCII = appEnv.data.map strings.lowerASCII →
        util.LoggingConfig unicodeToLower other = util.LoggingConfig unicodeToLower appEnv) := by
  refine ⟨?_, ?_, ?_, ?_, ?_, ?_, ?_⟩
  · intro h
    simp only [util.LoggingConfig]
    rw [if_pos h]
  · intro h
    have h1 : ¬ (strings.ToLower unicodeToLower appEnv = "dev"
        ∨ strings.ToLower unicodeToLower appEnv = "development") := by
      rcases h with h | h <;> rw [h] <;> decide
    simp only [util.LoggingConfig]
    rw [if_neg h1, if_pos h]
  · intro h
    have h1 : ¬ (strings.ToLower unicodeToLower appEnv = "dev"
        ∨ strings.ToLower unicodeToLower appEnv = "development") := by
      rcases h with h | h <;> rw [h] <;> decide
    have h2 : ¬ (strings.ToLower unicodeToLower appEnv = "stg"
        ∨ strings.ToLower unicodeToLower appEnv = "staging") := by
      rcases h with h | h <;> rw [h] <;> decide
    simp only [util.LoggingConfig]
    rw [if_neg h1, if_neg h2, if_pos h]
  · intro h
    have h1 : ¬ (strings.ToLower unicodeToLower appEnv = "dev"
        ∨ strings.ToLower unicodeToLower appEnv = "development") := by tauto
    have h2 : ¬ (strings.ToLower unicodeToLower appEnv = "stg"
        ∨ strings.ToLower unicodeToLower appEnv = "staging") := by tauto
    have h3 : ¬ (strings.ToLower unicodeToLower appEnv = "prod"
        ∨ strings.ToLower unicodeToLower appEnv = "production") := by tauto
    simp only [util.LoggingConfig]
    rw [if_neg h1, if_neg h2, if_neg h3]
  · have h0 : strings.ToLower unicodeToLower "" = "" := by
      rw [strings.ToLower_of_ascii unicodeToLower "" (by decide)]
      decide
    simp only [util.LoggingConfig]
    rw [h0]
    decide
  · intro other h
    simp only [util.LoggingConfig]
    rw [h]
  · intro other ha ho h
    simp only [util.LoggingConfig]
    rw [strings.ToLower_of_ascii unicodeToLower other ho,
      strings.ToLower_of_ascii unicodeToLower appEnv ha, h]

/-- The profile table and the insensitivity to case of C1 at the name "PROD": it
lower-cases to "prod", gets (Info, json, false), and so does the spelling "Prod". -/
theorem LoggingConfig_profile_witness :
    strings.ToLower id "PROD" = "prod"
    ∧ util.LoggingConfig id "PROD" = (util.LoggingLevelInfo, util.LoggingEncodeJSON, false)
    ∧ util.LoggingConfig id "Prod" = util.LoggingConfig id "PROD" :=
  ⟨by decide,
   (LoggingConfig_profile id "PROD").2.2.1 (Or.inl (by decide)),
   (LoggingConfig_profile id "PROD").2.2.2.2.2.2 "Prod" (by decide) (by decide) (by decide)⟩


/-! ## The option composer (`util.NewLogger` and the built-in options) -/

/-- Every built-in option succeeds; the state it returns has the level, the encoding and
the level encoder written by that option, and the other two as they were. -/
theorem BuiltinOption.toLoggerOption_ok (notifier : bugsnag.Notifier) (o : BuiltinOption)
    (st : zap.Config × List zap.Option) :
    ∃ cfg buildOpts, o.toLoggerOption notifier st = .ok (cfg, buildOpts)
      ∧ cfg.Level = ((lastLoggingLevel [o]).map util.toZapLevel).getD st.1.Level
      ∧ cfg.Encoding = (lastEncoded [o]).getD st.1.Encoding
      ∧ (cfg.EncoderConfig.EncodeLevel = zapcore.LevelEncoder.CapitalColorLevelEncoder ↔
          (o = BuiltinOption.WithColor true
            ∨ st.1.EncoderConfig.EncodeLevel = zapcore.LevelEncoder.CapitalColorLevelEncoder)) := by
  obtain ⟨cfg0, opts0⟩ := st
  cases o with
  | WithLoggingLevel level =>
    exact ⟨_, _, rfl, by simp [lastLoggingLevel], by simp [lastEncoded], by simp⟩
  | WithEncoded encode =>
    exact ⟨_, _, rfl, by simp [lastLoggingLevel], by simp [lastEncoded], by simp⟩
  | WithColor color =>
    cases color with
    | true => exact ⟨_, _, rfl, by simp [lastLoggingLevel], by simp [lastEncoded], by simp⟩
    | false => exact ⟨_, _, rfl, by simp [lastLoggingLevel], by simp [lastEncoded], by simp⟩
  | WithAddStacktrace level =>
    exact ⟨_, _, rfl, by simp [lastLoggingLevel], by simp [lastEncoded], by simp⟩
  | WithAddCaller skip =>
    exact ⟨_, _, rfl, by simp [lastLoggingLevel], by simp [lastEncoded], by simp⟩
  | WithBugsnagNotify level =>
    exact ⟨_, _, rfl, by simp [lastLoggingLevel], by simp [lastEncoded], by simp⟩

theorem lastLoggingLevel_cons (o : BuiltinOption) (rest : List BuiltinOption) :
    lastLoggingLevel (o :: rest) = (lastLoggingLevel rest).orElse (fun _ => lastLoggingLevel [o]) := by
  cases h : lastLoggingLevel rest <;> cases o <;> simp [lastLoggingLevel, h]

theorem lastEncoded_cons (o : BuiltinOption) (rest : List BuiltinOption) :
    lastEncoded (o :: rest) = (lastEncoded rest).orElse (fun _ => lastEncoded [o]) := by
  cases h : lastEncoded rest <;> cases o <;> simp [lastEncoded, h]

/-- The option loop of `NewLogger` on a sequence of built-in options, from any state:
it succeeds, the level is that of the last `WithLoggingLevel`, the encoding that of the
last `WithEncoded`, both as in the starting state when there is no such option, and the
colour level encoder is set exactly when it was set at the start or some `WithColor(true)`
occurs. -/
theorem util.NewLogger.loop_builtin (notifier : bugsnag.Notifier) (seq : List BuiltinOption) :
    ∀ st : zap.Config × List zap.Option,
    ∃ cfg buildOpts,
      util.NewLogger.loop (seq.map (BuiltinOption.toLoggerOption notifier)) st = .ok (cfg, buildOpts)
      ∧ cfg.Level = ((lastLoggingLevel seq).map util.toZapLevel).getD st.1.Level
      ∧ cfg.Encoding = (lastEncoded seq).getD st.1.Encoding
      ∧ (cfg.EncoderConfig.EncodeLevel = zapcore.LevelEncoder.CapitalColorLevelEncoder ↔
          (BuiltinOption.WithColor true ∈ seq
            ∨ st.1.EncoderConfig.EncodeLevel = zapcore.LevelEncoder.CapitalColorLevelEncoder)) := by
  induction seq with
  | nil =>
    intro st
    exact ⟨st.1, st.2, rfl, by simp [lastLoggingLevel], by simp [lastEncoded], by simp⟩
  | cons o rest ih =>
    intro st
    obtain ⟨cfg1, opts1, h1, hl1, he1, hc1⟩ := BuiltinOption.toLoggerOption_ok notifier o st
    obtain ⟨cfg2, opts2, h2, hl2, he2, hc2⟩ := ih (cfg1, opts1)
    refine ⟨cfg2, opts2, ?_, ?_, ?_, ?_⟩
    · simp only [List.map_cons, util.NewLogger.loop, h1, h2]
    · rw [hl2, lastLoggingLevel_cons]
      cases h : lastLoggingLevel rest with
      | some l => simp
      | none => simpa using hl1
    · rw [he2, lastEncoded_cons]
      cases h : lastEncoded rest with
      | some e => simp
      | none => simpa using he1
    · rw [hc2, List.mem_cons]
      rw [hc1]
      constructor
      · rintro (h | h | h)
        · exact Or.inl (Or.inr h)
        · exact Or.inl (Or.inl h.symm)
        · exact Or.inr h
      · rintro ((h | h) | h)
        · exact Or.inr (Or.inl h.symm)
        · exact Or.inl h
        · exact Or.inr (Or.inr h)

/-- C2, counterexample: for the sequence `WithColor(true), WithColor(false)` the last
`WithColor` was given false, yet the configuration that is built carries the colour level
encoder. -/
theorem NewLogger_color_not_last_write :
    lastColor [BuiltinOption.WithColor true, BuiltinOption.WithColor false] = some false
    ∧ (builtConfig (fun _ => none)
          [BuiltinOption.WithColor true, BuiltinOption.WithColor false]).map
        (fun cfg => cfg.EncoderConfig.EncodeLevel)
      = some zapcore.LevelEncoder.CapitalColorLevelEncoder := by
  decide

/-- C2, amended: for any sequence of built-in options `NewLogger` applies them all and
calls the sink's `Build` on a configuration whose level is that of the last
`WithLoggingLevel` and whose encoding is that of the last `WithEncoded` (the defaults
Debug and "console" when there is none); the colour level encoder is set exactly when
some `WithColor(true)` occurs in the sequence, wherever it stands. -/
theorem NewLogger_last_write_wins (notifier : bugsnag.Notifier) (seq : List BuiltinOption) :
    ∃ cfg buildOpts,
      (∀ (L : Type) (Build : zap.Config → List zap.Option → Except String L),
        util.NewLogger Build (seq.map (BuiltinOption.toLoggerOption notifier)) = Build cfg buildOpts)
      ∧ builtConfig notifier seq = some cfg
      ∧ cfg.Level = ((lastLoggingLevel seq).map util.toZapLevel).getD (int8 (-1))
      ∧ cfg.Encoding = (lastEncoded seq).getD "console"
      ∧ (cfg.EncoderConfig.EncodeLevel = zapcore.LevelEncoder.CapitalColorLevelEncoder ↔
          BuiltinOption.WithColor true ∈ seq) := by
  obtain ⟨cfg, buildOpts, h, hl, he, hc⟩ :=
    util.NewLogger.loop_builtin notifier seq (util.NewLogger.cfg, [])
  refine ⟨cfg, buildOpts, ?_, ?_, hl, he, ?_⟩
  · intro L Build
    simp only [util.NewLogger, h]
    cases Build cfg buildOpts <;> rfl
  · simp only [builtConfig, util.NewLogger, h]
  · rw [hc]
    simp [util.NewLogger.cfg]

/-! ## Colour and JSON (`util.WithColor`) -/

/-- C3, counterexample: on the default configuration with the encoding set to "json",
`WithColor(true)` replaces the plain level encoder by the colour level encoder, and the
configuration built from `WithEncoded(json), WithColor(true)` has encoding "json" together
with the colour level encoder. -/
theorem WithColor_json_not_noop :
    ({ util.NewLogger.cfg with Encoding := "json" } : zap.Config).EncoderConfig.EncodeLevel
      = zapcore.LevelEncoder.CapitalLevelEncoder
    ∧ (configOf (util.WithColor true ({ util.NewLogger.cfg with Encoding := "json" }, []))).map
        (fun cfg => (cfg.Encoding, cfg.EncoderConfig.EncodeLevel))
      = some ("json", zapcore.LevelEncoder.CapitalColorLevelEncoder)
    ∧ (builtConfig (fun _ => none)
          [BuiltinOption.WithEncoded util.LoggingEncodeJSON, BuiltinOption.WithColor true]).map
        (fun cfg => (cfg.Encoding, cfg.EncoderConfig.EncodeLevel))
      = some ("json", zapcore.LevelEncoder.CapitalColorLevelEncoder) := by
  decide

/-- C3, amended: `WithColor(true)` succeeds on every configuration and sets the colour
level encoder whatever the encoding is, leaving every other field and the build options
as they were; `WithColor(false)` changes nothing. A configuration built from
`WithEncoded(json)` and `WithColor(true)`, in either order, has encoding "json" and
carries the colour level encoder. -/
theorem WithColor_sets_color_for_every_encoding (notifier : bugsnag.Notifier)
    (cfg : zap.Config) (opts : List zap.Option) :
    util.WithColor true (cfg, opts)
      = .ok ({ cfg with EncoderConfig :=
                { cfg.EncoderConfig with
                  EncodeLevel := zapcore.LevelEncoder.CapitalColorLevelEncoder } }, opts)
    ∧ util.WithColor false (cfg, opts) = .ok (cfg, opts)
    ∧ builtConfig notifier
        [BuiltinOption.WithEncoded util.LoggingEncodeJSON, BuiltinOption.WithColor true]
      = some { util.NewLogger.cfg with
                Encoding := "json"
                EncoderConfig :=
                  { util.NewLogger.cfg.EncoderConfig with
                    EncodeLevel := zapcore.LevelEncoder.CapitalColorLevelEncoder } }
    ∧ builtConfig notifier
        [BuiltinOption.WithColor true, BuiltinOption.WithEncoded util.LoggingEncodeJSON]
      = some { util.NewLogger.cfg with
                Encoding := "json"
                EncoderConfig :=
                  { util.NewLogger.cfg.EncoderConfig with
                    EncodeLevel := zapcore.LevelEncoder.CapitalColorLevelEncoder } } :=
  ⟨rfl, rfl, rfl, rfl⟩

/-! ## The explicit level override (`init` of `util/logger.go`) -/

/-- C4: the options `init` passes to `NewLogger` are `WithLoggingLevel(T)`,
`WithEncoded`, `WithColor`, `WithAddStacktrace(Error)` and `WithAddCaller(0)`, where the
threshold `T` is `LoggingLevel(n)` when `ZapLevel` is non-empty and `strconv.Atoi` parses
it as `n`, and the level of `LoggingConfig(AppEnv)` otherwise, while the encoding and the
colour flag are always those of `LoggingConfig(AppEnv)`. For `AppEnv = "development"` and
`ZapLevel = "2"` the threshold is Error (2), the encoding console and colour on. -/
theorem init_level_override (unicodeToLower : Char → Char) (AppEnv ZapLevel : String) :
    util.init.options unicodeToLower AppEnv ZapLevel
      = [util.WithLoggingLevel (util.init.settings unicodeToLower AppEnv ZapLevel).1,
         util.WithEncoded (util.LoggingConfig unicodeToLower AppEnv).2.1,
         util.WithColor (util.LoggingConfig unicodeToLower AppEnv).2.2,
         util.WithAddStacktrace util.LoggingLevelError,
         util.WithAddCaller 0]
    ∧ (∀ n : Int, ZapLevel ≠ "" → strconv.Atoi ZapLevel = some n →
        (util.init.settings unicodeToLower AppEnv ZapLevel).1 = n)
    ∧ ((ZapLevel = "" ∨ strconv.Atoi ZapLevel = none) →
        (util.init.settings unicodeToLower AppEnv ZapLevel).1
          = (util.LoggingConfig unicodeToLower AppEnv).1)
    ∧ (util.init.settings unicodeToLower AppEnv ZapLevel).2
        = (util.LoggingConfig unicodeToLower AppEnv).2
    ∧ util.init.settings unicodeToLower "development" "2"
        = (util.LoggingLevelError, util.LoggingEncodeConsole, true)
    ∧ (util.LoggingConfig unicodeToLower "development").1 = util.LoggingLevelDebug := by
  have hdev : strings.ToLower unicodeToLower "development" = "development" := by
    rw [strings.ToLower_of_ascii unicodeToLower "development" (by decide)]
    decide
  have hcfg : util.LoggingConfig unicodeToLower "development"
      = (util.LoggingLevelDebug, util.LoggingEncodeConsole, true) := by
    simp only [util.LoggingConfig]
    rw [if_pos (Or.inr hdev)]
  refine ⟨rfl, ?_, ?_, rfl, ?_, ?_⟩
  · intro n hne hn
    simp only [util.init.settings]
    rw [if_pos hne, hn]
  · intro h
    simp only [util.init.settings]
    by_cases hne : ZapLevel = ""
    · rw [if_neg (not_not.mpr hne)]
    · rw [if_pos hne]
      rcases h with h | h
      · exact absurd h hne
      · rw [h]
  · have h2 : strconv.Atoi "2" = some 2 := by decide
    simp only [util.init.settings]
    rw [hcfg, if_pos (by decide), h2]
    rfl
  · rw [hcfg]

/-- The override of C4 at `AppEnv = "production"`, `ZapLevel = "-1"`: the string is not
empty and parses as -1, so the threshold is Debug (-1) and not the Info of the profile. -/
theorem init_level_override_witness :
    ("-1" : String) ≠ "" ∧ strconv.Atoi "-1" = some (-1)
    ∧ (util.init.settings id "production" "-1").1 = -1 :=
  ⟨by decide, by decide,
   (init_level_override id "production" "-1").2.1 (-1) (by decide) (by decide)⟩

/-! ## The app logger builder (`app/logger/zap/zap.go`) -/

theorem app.logger.zap.newConfig.level_err (c : app.LoggerConfig) :
    (app.logger.zap.newConfig.level c app.logger.zap.config.zero).err
      = if c.levelKnown then none else some "unexpected logging level -1" := by
  unfold app.logger.zap.newConfig.level
  by_cases h1 : c.LoggingLevel = app.LoggingLvlDebug
  · rw [if_pos h1, if_pos (show c.levelKnown from Or.inl h1)]
    rfl
  · by_cases h2 : c.LoggingLevel = app.LoggingLvlInfo
    · rw [if_neg h1, if_pos h2, if_pos (show c.levelKnown from Or.inr (Or.inl h2))]
      rfl
    · by_cases h3 : c.LoggingLevel = app.LoggingLvlError
      · rw [if_neg h1, if_neg h2, if_pos h3, if_pos (show c.levelKnown from Or.inr (Or.inr h3))]
        rfl
      · have hk : ¬ c.levelKnown := by
          rintro (h | h | h)
          · exact h1 h
          · exact h2 h
          · exact h3 h
        rw [if_neg h1, if_neg h2, if_neg h3, if_neg hk]
        decide

theorem app.logger.zap.newConfig.encode_err (c : app.LoggerConfig) (c0 : app.logger.zap.config) :
    (app.logger.zap.newConfig.encode c c0).err
      = if c.encodeKnown then c0.err else some ("unexpected logging encode " ++ c.LoggingEncode) := by
  unfold app.logger.zap.newConfig.encode
  by_cases h1 : c.LoggingEncode = app.LoggingEncJSON
  · simp only [if_pos h1, if_pos (show c.encodeKnown from Or.inl h1)]
  · by_cases h2 : c.LoggingEncode = app.LoggingEncText
    · simp only [if_neg h1, if_pos h2, if_pos (show c.encodeKnown from Or.inr (Or.inl h2))]
    · by_cases h3 : c.LoggingEncode = app.LoggingEncColorText
      · simp only [if_neg h1, if_neg h2, if_pos h3,
          if_pos (show c.encodeKnown from Or.inr (Or.inr h3))]
      · have hk : ¬ c.encodeKnown := by
          rintro (h | h | h)
          · exact h1 h
          · exact h2 h
          · exact h3 h
        simp only [if_neg h1, if_neg h2, if_neg h3, if_neg hk]

theorem app.logger.zap.newConfig.encode_encode (c : app.LoggerConfig) (c0 : app.logger.zap.config)
    (h : c.encodeKnown) :
    (app.logger.zap.newConfig.encode c c0).encode = "json"
      ∨ (app.logger.zap.newConfig.encode c c0).encode = "console" := by
  unfold app.logger.zap.newConfig.encode
  by_cases h1 : c.LoggingEncode = app.LoggingEncJSON
  · left
    simp only [if_pos h1]
    rfl
  · by_cases h2 : c.LoggingEncode = app.LoggingEncText
    · right
      simp only [if_neg h1, if_pos h2]
      rfl
    · by_cases h3 : c.LoggingEncode = app.LoggingEncColorText
      · right
        simp only [if_neg h1, if_neg h2, if_pos h3]
        rfl
      · rcases h with h | h | h
        · exact absurd h h1
        · exact absurd h h2
        · exact absurd h h3

theorem app.logger.zap.newConfig.timestamp_err (c : app.LoggerConfig) (c0 : app.logger.zap.config) :
    (app.logger.zap.newConfig.timestamp c c0).err = c0.err
    ∧ (app.logger.zap.newConfig.timestamp c c0).encode = c0.encode := by
  unfold app.logger.zap.newConfig.timestamp
  by_cases h : c.NoTimestamp = true <;> simp [h]

theorem app.logger.zap.newConfig.out_err (c : app.LoggerConfig) (c0 : app.logger.zap.config) :
    (app.logger.zap.newConfig.out c c0).err
        = (if c.Out = none then some "app.LoggerConfig.Out should be not nil" else c0.err)
    ∧ (app.logger.zap.newConfig.out c c0).encode = c0.encode
    ∧ (app.logger.zap.newConfig.out c c0).out = c.Out := by
  unfold app.logger.zap.newConfig.out
  by_cases h : c.Out = none <;> simp [h]

/-- The error `newConfig` leaves in the configuration: each failing check overwrites the
error of the checks before it. -/
theorem app.logger.zap.newConfig_err (c : app.LoggerConfig) :
    (app.logger.zap.newConfig c).err
      = if c.Out = none then some "app.LoggerConfig.Out should be not nil"
        else if c.encodeKnown then
          (if c.levelKnown then none else some "unexpected logging level -1")
        else some ("unexpected logging encode " ++ c.LoggingEncode) := by
  unfold app.logger.zap.newConfig
  rw [(app.logger.zap.newConfig.out_err c _).1, (app.logger.zap.newConfig.timestamp_err c _).1,
    app.logger.zap.newConfig.encode_err, app.logger.zap.newConfig.level_err]

/-- Once the encoding check of `newConfig` passed, `buildEncoder` returns an encoder. -/
theorem app.logger.zap.buildEncoder_ok (c : app.LoggerConfig) (h : c.encodeKnown) :
    ∃ enc, (app.logger.zap.newConfig c).buildEncoder = .ok enc := by
  have henc : (app.logger.zap.newConfig c).encode = "json"
      ∨ (app.logger.zap.newConfig c).encode = "console" := by
    unfold app.logger.zap.newConfig
    rw [(app.logger.zap.newConfig.out_err c _).2.1, (app.logger.zap.newConfig.timestamp_err c _).2]
    exact app.logger.zap.newConfig.encode_encode c _ h
  unfold app.logger.zap.config.buildEncoder
  rcases henc with h1 | h1
  · exact ⟨_, by rw [if_pos h1]⟩
  · have h2 : ¬ ((app.logger.zap.newConfig c).encode = "json") := by rw [h1]; decide
    exact ⟨_, by rw [if_neg h2, if_pos h1]⟩

/-- What `New` returns, by the error `newConfig` recorded. -/
theorem app.logger.zap.New_cases (c : app.LoggerConfig) :
    (∀ err, (app.logger.zap.newConfig c).err = some err → app.logger.zap.New c = .error err)
    ∧ ((app.logger.zap.newConfig c).err = none → c.encodeKnown →
        ∃ logger, app.logger.zap.New c = .ok logger) := by
  constructor
  · intro err h
    simp only [app.logger.zap.New, app.logger.zap.newLogger, app.logger.zap.config.build, h]
  · intro h henc
    obtain ⟨enc, he⟩ := app.logger.zap.buildEncoder_ok c henc
    simp only [app.logger.zap.New, app.logger.zap.newLogger, app.logger.zap.config.build, h, he]
    exact ⟨_, rfl⟩

/-- The configurations on which `newConfig` records no error. -/
theorem app.logger.zap.newConfig_err_none_iff (c : app.LoggerConfig) :
    (app.logger.zap.newConfig c).err = none ↔ (c.levelKnown ∧ c.encodeKnown ∧ c.Out ≠ none) := by
  rw [app.logger.zap.newConfig_err c]
  by_cases ho : c.Out = none
  · rw [if_pos ho]
    constructor
    · intro h
      cases h
    · intro h
      exact absurd ho h.2.2
  · rw [if_neg ho]
    by_cases he : c.encodeKnown
    · rw [if_pos he]
      by_cases hl : c.levelKnown
      · rw [if_pos hl]
        exact ⟨fun _ => ⟨hl, he, ho⟩, fun _ => rfl⟩
      · rw [if_neg hl]
        constructor
        · intro h
          cases h
        · intro h
          exact absurd h.1 hl
    · rw [if_neg he]
      constructor
      · intro h
        cases h
      · intro h
        exact absurd h.2.1 he

/-- The result of `New` is a logger on the configurations that pass the three checks and
an error on all others. -/
theorem app.logger.zap.New_ok_or_error (c : app.LoggerConfig) :
    ((c.levelKnown ∧ c.encodeKnown ∧ c.Out ≠ none) → ∃ logger, app.logger.zap.New c = .ok logger)
    ∧ (¬ (c.levelKnown ∧ c.encodeKnown ∧ c.Out ≠ none) →
        ∃ err, app.logger.zap.New c = .error err) := by
  have hcases := app.logger.zap.New_cases c
  have key := app.logger.zap.newConfig_err_none_iff c
  constructor
  · intro h
    exact hcases.2 (key.mpr h) h.2.1
  · intro h
    cases hE : (app.logger.zap.newConfig c).err with
    | none => exact absurd (key.mp hE) h
    | some err => exact ⟨err, hcases.1 err hE⟩

/-- C5: `zap.New` (`newConfig` followed by `build`) returns an error exactly when the
logging level is none of Debug, Info, Error, or the encoding is none of "json", "text",
"color", or the output sink is nil; for every other configuration it returns a logger.
Whenever `newConfig` recorded no error, `buildEncoder` returns an encoder, so its failure
branch is not reached. -/
theorem New_error_iff (c : app.LoggerConfig) :
    ((∃ err, app.logger.zap.New c = .error err) ↔
      (¬ (c.LoggingLevel = app.LoggingLvlDebug ∨ c.LoggingLevel = app.LoggingLvlInfo
            ∨ c.LoggingLevel = app.LoggingLvlError)
        ∨ ¬ (c.LoggingEncode = app.LoggingEncJSON ∨ c.LoggingEncode = app.LoggingEncText
            ∨ c.LoggingEncode = app.LoggingEncColorText)
        ∨ c.Out = none))
    ∧ ((∃ logger, app.logger.zap.New c = .ok logger) ↔
      ((c.LoggingLevel = app.LoggingLvlDebug ∨ c.LoggingLevel = app.LoggingLvlInfo
            ∨ c.LoggingLevel = app.LoggingLvlError)
        ∧ (c.LoggingEncode = app.LoggingEncJSON ∨ c.LoggingEncode = app.LoggingEncText
            ∨ c.LoggingEncode = app.LoggingEncColorText)
        ∧ c.Out ≠ none))
    ∧ ((app.logger.zap.newConfig c).err = none →
        ∃ enc, (app.logger.zap.newConfig c).buildEncoder = .ok enc) := by
  obtain ⟨good, bad⟩ := app.logger.zap.New_ok_or_error c
  change (_ ↔ (¬ c.levelKnown ∨ ¬ c.encodeKnown ∨ c.Out = none))
    ∧ (_ ↔ (c.levelKnown ∧ c.encodeKnown ∧ c.Out ≠ none)) ∧ _
  refine ⟨?_, ?_, ?_⟩
  · constructor
    · rintro ⟨err, he⟩
      by_contra hcon
      have hgood : c.levelKnown ∧ c.encodeKnown ∧ c.Out ≠ none :=
        ⟨by_contra fun h => hcon (Or.inl h),
         by_contra fun h => hcon (Or.inr (Or.inl h)),
         fun h => hcon (Or.inr (Or.inr h))⟩
      obtain ⟨logger, hl⟩ := good hgood
      rw [hl] at he
      cases he
    · intro h
      apply bad
      rintro ⟨hl, he, ho⟩
      rcases h with h | h | h
      · exact h hl
      · exact h he
      · exact ho h
  · constructor
    · rintro ⟨logger, hl⟩
      by_contra hcon
      obtain ⟨err, he⟩ := bad hcon
      rw [he] at hl
      cases hl
    · exact good
  · intro h
    exact app.logger.zap.buildEncoder_ok c ((app.logger.zap.newConfig_err_none_iff c).mp h).2.1

/-- The last clause of C5 at the configuration (Info, "text", standard output):
`newConfig` records no error there and `buildEncoder` returns an encoder. -/
theorem New_error_iff_witness :
    (app.logger.zap.newConfig
        { LoggingLevel := app.LoggingLvlInfo, LoggingEncode := app.LoggingEncText,
          Out := some io.Writer.Stdout }).err = none
    ∧ ∃ enc, (app.logger.zap.newConfig
        { LoggingLevel := app.LoggingLvlInfo, LoggingEncode := app.LoggingEncText,
          Out := some io.Writer.Stdout }).buildEncoder = .ok enc :=
  ⟨by decide,
   (New_error_iff { LoggingLevel := app.LoggingLvlInfo, LoggingEncode := app.LoggingEncText,
                    Out := some io.Writer.Stdout }).2.2 (by decide)⟩

/-- C9, counterexample: with level 5, encoding "xml" and a nil sink all three checks of
`newConfig` fail; the first failing check (the level) records "unexpected logging level
-1", yet `New` returns the error of the sink check. -/
theorem New_first_error_overwritten :
    (app.logger.zap.newConfig.level { LoggingLevel := 5, LoggingEncode := "xml", Out := none }
        app.logger.zap.config.zero).err = some "unexpected logging level -1"
    ∧ errorOf (app.logger.zap.New { LoggingLevel := 5, LoggingEncode := "xml", Out := none })
        = some "app.LoggerConfig.Out should be not nil"
    ∧ errorOf (app.logger.zap.New { LoggingLevel := 5, LoggingEncode := "xml", Out := none })
        ≠ some "unexpected logging level -1" := by
  decide

/-- C9, amended: `newConfig` runs the level check, the encoding check and the sink check
whatever the earlier ones found (a failing level check records its error, the sink is
copied in every case), and each failing check overwrites the error recorded before it, so
`build` returns the error of the last failing check: the sink error when the sink is nil,
else the encoding error when the encoding is unknown, else the level error. -/
theorem New_last_error_wins (c : app.LoggerConfig) :
    (¬ c.levelKnown →
        (app.logger.zap.newConfig.level c app.logger.zap.config.zero).err
          = some "unexpected logging level -1")
    ∧ (app.logger.zap.newConfig c).out = c.Out
    ∧ (c.Out = none →
        app.logger.zap.New c = .error "app.LoggerConfig.Out should be not nil")
    ∧ (c.Out ≠ none → ¬ c.encodeKnown →
        app.logger.zap.New c = .error ("unexpected logging encode " ++ c.LoggingEncode))
    ∧ (c.Out ≠ none → c.encodeKnown → ¬ c.levelKnown →
        app.logger.zap.New c = .error "unexpected logging level -1") := by
  have herr := app.logger.zap.newConfig_err c
  have hcases := (app.logger.zap.New_cases c).1
  refine ⟨?_, ?_, ?_, ?_, ?_⟩
  · intro hl
    rw [app.logger.zap.newConfig.level_err, if_neg hl]
  · unfold app.logger.zap.newConfig
    exact (app.logger.zap.newConfig.out_err c _).2.2
  · intro ho
    apply hcases
    rw [herr, if_pos ho]
  · intro ho he
    apply hcases
    rw [herr, if_neg ho, if_neg he]
  · intro ho he hl
    apply hcases
    rw [herr, if_neg ho, if_pos he, if_neg hl]

/-- The amended C9 at level 7, encoding "yaml" and standard output as sink: the level and
the encoding checks fail, and `New` returns the encoding error, recorded last. -/
theorem New_last_error_wins_witness :
    app.logger.zap.New { LoggingLevel := 7, LoggingEncode := "yaml", Out := some io.Writer.Stdout }
      = .error ("unexpected logging encode " ++ "yaml") :=
  (New_last_error_wins
    { LoggingLevel := 7, LoggingEncode := "yaml", Out := some io.Writer.Stdout }).2.2.2.1
    (by decide) (by decide)

/-! ## The entry point (`main.go`) against the profile table -/

theorem strings.ToLower_dev (unicodeToLower : Char → Char) :
    strings.ToLower unicodeToLower "dev" = "dev"
    ∧ strings.ToLower unicodeToLower "development" = "development" := by
  constructor
  · rw [strings.ToLower_of_ascii unicodeToLower "dev" (by decide)]
    decide
  · rw [strings.ToLower_of_ascii unicodeToLower "development" (by decide)]
    decide

/-- The profile of `LoggingConfig` is (Info, json, false) exactly for the names that
lower-case to "prod" or "production". -/
theorem util.LoggingConfig_eq_info_iff (unicodeToLower : Char → Char) (appEnv : String) :
    util.LoggingConfig unicodeToLower appEnv
        = (util.LoggingLevelInfo, util.LoggingEncodeJSON, false)
      ↔ (strings.ToLower unicodeToLower appEnv = "prod"
          ∨ strings.ToLower unicodeToLower appEnv = "production") := by
  simp only [util.LoggingConfig]
  by_cases h1 : strings.ToLower unicodeToLower appEnv = "dev"
      ∨ strings.ToLower unicodeToLower appEnv = "development"
  · rw [if_pos h1]
    constructor
    · intro h
      exact absurd h (by decide)
    · intro h
      rcases h1 with h1 | h1 <;> rcases h with h | h <;> rw [h1] at h <;> exact absurd h (by decide)
  · rw [if_neg h1]
    by_cases h2 : strings.ToLower unicodeToLower appEnv = "stg"
        ∨ strings.ToLower unicodeToLower appEnv = "staging"
    · rw [if_pos h2]
      constructor
      · intro h
        exact absurd h (by decide)
      · intro h
        rcases h2 with h2 | h2 <;> rcases h with h | h <;> rw [h2] at h <;>
          exact absurd h (by decide)
    · rw [if_neg h2]
      by_cases h3 : strings.ToLower unicodeToLower appEnv = "prod"
          ∨ strings.ToLower unicodeToLower appEnv = "production"
      · rw [if_pos h3]
        exact ⟨fun _ => h3, fun _ => rfl⟩
      · rw [if_neg h3]
        constructor
        · intro h
          exact absurd h (by decide)
        · intro h
          exact absurd h h3

/-- C10, counterexample: for `AppEnv = "staging"` the entry point configures (Info, json)
while `util.LoggingConfig` gives (Debug, json); for `AppEnv = "DEV"` the entry point
configures (Info, json) while `util.LoggingConfig` gives (Debug, console, colour). -/
theorem main_profile_differs :
    profileOfLoggerConfig (main.getLogger.cfg (main.setEnv "staging" {}))
      = some (util.LoggingLevelInfo, util.LoggingEncodeJSON, false)
    ∧ util.LoggingConfig id "staging" = (util.LoggingLevelDebug, util.LoggingEncodeJSON, false)
    ∧ profileOfLoggerConfig (main.getLogger.cfg (main.setEnv "DEV" {}))
      = some (util.LoggingLevelInfo, util.LoggingEncodeJSON, false)
    ∧ util.LoggingConfig id "DEV" = (util.LoggingLevelDebug, util.LoggingEncodeConsole, true) := by
  decide

/-- C10, amended: the entry point resolves the environment by a two-way, case-sensitive
policy. `setEnv` followed by `getLogger` configures (Debug, "color") when `AppEnv` is
exactly "dev" or "development", which is the profile of `util.LoggingConfig` for these
names, and (Info, "json") for every other string, which is the profile of
`util.LoggingConfig` exactly when the name lower-cases to "prod" or "production". The sink
is standard output in every case. -/
theorem main_logger_profile (unicodeToLower : Char → Char) (AppEnv : String) (st : app.State) :
    ((AppEnv = "dev" ∨ AppEnv = "development") →
        (main.getLogger.cfg (main.setEnv AppEnv st)).LoggingLevel = app.LoggingLvlDebug
        ∧ (main.getLogger.cfg (main.setEnv AppEnv st)).LoggingEncode = app.LoggingEncColorText
        ∧ profileOfLoggerConfig (main.getLogger.cfg (main.setEnv AppEnv st))
            = some (util.LoggingConfig unicodeToLower AppEnv))
    ∧ (¬ (AppEnv = "dev" ∨ AppEnv = "development") →
        (main.getLogger.cfg (main.setEnv AppEnv st)).LoggingLevel = app.LoggingLvlInfo
        ∧ (main.getLogger.cfg (main.setEnv AppEnv st)).LoggingEncode = app.LoggingEncJSON
        ∧ (profileOfLoggerConfig (main.getLogger.cfg (main.setEnv AppEnv st))
              = some (util.LoggingConfig unicodeToLower AppEnv)
            ↔ (strings.ToLower unicodeToLower AppEnv = "prod"
                ∨ strings.ToLower unicodeToLower AppEnv = "production")))
    ∧ (main.getLogger.cfg (main.setEnv AppEnv st)).Out = some io.Writer.Stdout := by
  have hlow := strings.ToLower_dev unicodeToLower
  refine ⟨?_, ?_, ?_⟩
  · intro h
    have hcfg : main.getLogger.cfg (main.setEnv AppEnv st)
        = { LoggingLevel := app.LoggingLvlDebug, LoggingEncode := app.LoggingEncColorText,
            Out := some io.Writer.Stdout } := by
      simp only [main.setEnv, main.getLogger.cfg, app.SetEnv, app.Env]
      rw [if_pos h, if_pos rfl]
    have hprof : util.LoggingConfig unicodeToLower AppEnv
        = (util.LoggingLevelDebug, util.LoggingEncodeConsole, true) := by
      simp only [util.LoggingConfig]
      rcases h with h | h
      · rw [h, if_pos (Or.inl hlow.1)]
      · rw [h, if_pos (Or.inr hlow.2)]
    rw [hcfg, hprof]
    exact ⟨rfl, rfl, by decide⟩
  · intro h
    have hcfg : main.getLogger.cfg (main.setEnv AppEnv st)
        = { LoggingLevel := app.LoggingLvlInfo, LoggingEncode := app.LoggingEncJSON,
            Out := some io.Writer.Stdout } := by
      simp only [main.setEnv, main.getLogger.cfg, app.SetEnv, app.Env]
      rw [if_neg h]
      by_cases hp : AppEnv = "proto"
      · rw [if_pos hp, if_neg (by decide)]
      · rw [if_neg hp, if_neg (by decide)]
    rw [hcfg]
    refine ⟨rfl, rfl, ?_⟩
    have hp : profileOfLoggerConfig
        { LoggingLevel := app.LoggingLvlInfo, LoggingEncode := app.LoggingEncJSON,
          Out := some io.Writer.Stdout }
        = some (util.LoggingLevelInfo, util.LoggingEncodeJSON, false) := by decide
    rw [hp, ← util.LoggingConfig_eq_info_iff]
    constructor
    · intro h
      exact (Option.some.inj h).symm
    · intro h
      rw [h]
  · simp only [main.getLogger.cfg]

/-- The amended C10 at `AppEnv = "Production"`: it is neither "dev" nor "development",
the entry point configures (Info, "json"), and this is the profile of
`util.LoggingConfig`, the name lower-casing to "production". -/
theorem main_logger_profile_witness :
    (main.getLogger.cfg (main.setEnv "Production" {})).LoggingLevel = app.LoggingLvlInfo
    ∧ (main.getLogger.cfg (main.setEnv "Production" {})).LoggingEncode = app.LoggingEncJSON
    ∧ (profileOfLoggerConfig (main.getLogger.cfg (main.setEnv "Production" {}))
          = some (util.LoggingConfig id "Production")
        ↔ (strings.ToLower id "Production" = "prod"
            ∨ strings.ToLower id "Production" = "production")) :=
  (main_logger_profile id "Production" {}).2.1 (by decide)

/-! ## The alert hook (`util.WithBugsnagNotify`) -/

/-- The conversion `int8` keeps every integer of the range of an 8-bit level. -/
theorem int8_of_range (n : Int) (h1 : -128 ≤ n) (h2 : n ≤ 127) : int8 n = n := by
  unfold int8
  omega

/-- What the callback of `WithBugsnagNotify` does on an entry at or above the truncated
threshold: one call of the notifier with the message of the entry, whose result is
returned. -/
theorem util.WithBugsnagNotify.cb_above (notifier : bugsnag.Notifier) (T : util.LoggingLevel)
    (entry : zapcore.Entry) (calls : List bugsnag.NotifyCall) (h : entry.Level ≥ int8 T) :
    util.WithBugsnagNotify.cb notifier T entry calls
      = (notifier
          { err := entry.Message
            state :=
              { SeverityReason := bugsnag.SeverityReasonHandledError
                OriginalSeverity := bugsnag.SeverityError
                Unhandled := false
                Framework := "Gin" } },
         calls ++
          [{ err := entry.Message
             state :=
               { SeverityReason := bugsnag.SeverityReasonHandledError
                 OriginalSeverity := bugsnag.SeverityError
                 Unhandled := false
                 Framework := "Gin" } }]) := by
  simp only [util.WithBugsnagNotify.cb]
  rw [if_pos h]

/-- What the callback of `WithBugsnagNotify` does on an entry below the truncated
threshold: nothing. -/
theorem util.WithBugsnagNotify.cb_below (notifier : bugsnag.Notifier) (T : util.LoggingLevel)
    (entry : zapcore.Entry) (calls : List bugsnag.NotifyCall) (h : entry.Level < int8 T) :
    util.WithBugsnagNotify.cb notifier T entry calls = (none, calls) := by
  simp only [util.WithBugsnagNotify.cb]
  rw [if_neg (not_le.mpr h)]

/-- C6, counterexample: with the threshold 128 a Debug entry (level -1) is below the
threshold, yet the hook calls the notifier once, because the threshold is converted to the
8-bit level -128. -/
theorem WithBugsnagNotify_notifies_below_threshold :
    (⟨util.LoggingLevelDebug, "m"⟩ : zapcore.Entry).Level < (128 : util.LoggingLevel)
    ∧ (util.WithBugsnagNotify.cb (fun _ => none) 128 ⟨util.LoggingLevelDebug, "m"⟩ []).2
      = [{ err := "m"
           state :=
             { SeverityReason := bugsnag.SeverityReasonHandledError
               OriginalSeverity := bugsnag.SeverityError
               Unhandled := false
               Framework := "Gin" } }] := by
  decide

/-- C6, amended: `WithBugsnagNotify(T)` succeeds and installs one hook. For every
threshold `T` in the range -128..127 of the sink's 8-bit level and every entry, the hook
calls the notifier exactly once, with an error whose message is the entry's message, when
the entry's level is at or above `T`, and does not call it when the level is below `T`.
For any `T` the comparison is made with `T` truncated to 8 bits. -/
theorem WithBugsnagNotify_threshold (notifier : bugsnag.Notifier) (T : util.LoggingLevel)
    (cfg : zap.Config) (opts : List zap.Option)
    (entry : zapcore.Entry) (calls : List bugsnag.NotifyCall) :
    util.WithBugsnagNotify notifier T (cfg, opts)
      = .ok (cfg, opts ++ [zap.Option.Hooks (util.WithBugsnagNotify.cb notifier T)])
    ∧ (-128 ≤ T → T ≤ 127 → entry.Level ≥ T →
        (util.WithBugsnagNotify.cb notifier T entry calls).2
          = calls ++
            [{ err := entry.Message
               state :=
                 { SeverityReason := bugsnag.SeverityReasonHandledError
                   OriginalSeverity := bugsnag.SeverityError
                   Unhandled := false
                   Framework := "Gin" } }])
    ∧ (-128 ≤ T → T ≤ 127 → entry.Level < T →
        (util.WithBugsnagNotify.cb notifier T entry calls).2 = calls)
    ∧ (entry.Level ≥ int8 T →
        (util.WithBugsnagNotify.cb notifier T entry calls).2
          = calls ++
            [{ err := entry.Message
               state :=
                 { SeverityReason := bugsnag.SeverityReasonHandledError
                   OriginalSeverity := bugsnag.SeverityError
                   Unhandled := false
                   Framework := "Gin" } }])
    ∧ (entry.Level < int8 T →
        (util.WithBugsnagNotify.cb notifier T entry calls).2 = calls) := by
  refine ⟨rfl, ?_, ?_, ?_, ?_⟩
  · intro h1 h2 h
    rw [← int8_of_range T h1 h2] at h
    rw [util.WithBugsnagNotify.cb_above notifier T entry calls h]
  · intro h1 h2 h
    rw [← int8_of_range T h1 h2] at h
    rw [util.WithBugsnagNotify.cb_below notifier T entry calls h]
  · intro h
    rw [util.WithBugsnagNotify.cb_above notifier T entry calls h]
  · intro h
    rw [util.WithBugsnagNotify.cb_below notifier T entry calls h]

/-- The amended C6 at the threshold Error: a Warn entry comes after one earlier call and
adds none, the threshold being in the 8-bit range. -/
theorem WithBugsnagNotify_threshold_witness :
    (util.WithBugsnagNotify.cb (fun _ => none) util.LoggingLevelError
        ⟨util.LoggingLevelWarn, "disk almost full"⟩
        [{ err := "earlier"
           state :=
             { SeverityReason := bugsnag.SeverityReasonHandledError
               OriginalSeverity := bugsnag.SeverityError
               Unhandled := false
               Framework := "Gin" } }]).2
      = [{ err := "earlier"
           state :=
             { SeverityReason := bugsnag.SeverityReasonHandledError
               OriginalSeverity := bugsnag.SeverityError
               Unhandled := false
               Framework := "Gin" } }] :=
  (WithBugsnagNotify_threshold (fun _ => none) util.LoggingLevelError util.NewLogger.cfg []
    ⟨util.LoggingLevelWarn, "disk almost full"⟩ _).2.2.1 (by decide) (by decide) (by decide)

/-- C7, counterexample: when `Notify` returns an error for an Error entry at the
threshold Error, the callback returns that error. -/
theorem WithBugsnagNotify_returns_notify_error :
    (util.WithBugsnagNotify.cb (fun _ => some "bugsnag: delivery failed") util.LoggingLevelError
        ⟨util.LoggingLevelError, "m"⟩ []).1
      = some "bugsnag: delivery failed" := by
  decide

/-- C7, amended: the callback installed by `WithBugsnagNotify` returns the result of the
notifier's `Notify` call, error included, for an entry at or above the threshold
(truncated to 8 bits), and returns no error for an entry below it, the notifier not being
called. So it returns no error exactly when the entry is below the threshold or `Notify`
returned none. -/
theorem WithBugsnagNotify_error_propagates (notifier : bugsnag.Notifier)
    (T : util.LoggingLevel) (entry : zapcore.Entry) (calls : List bugsnag.NotifyCall) :
    (entry.Level ≥ int8 T →
        (util.WithBugsnagNotify.cb notifier T entry calls).1
          = notifier
              { err := entry.Message
                state :=
                  { SeverityReason := bugsnag.SeverityReasonHandledError
                    OriginalSeverity := bugsnag.SeverityError
                    Unhandled := false
                    Framework := "Gin" } })
    ∧ (entry.Level < int8 T → (util.WithBugsnagNotify.cb notifier T entry calls).1 = none) := by
  constructor
  · intro h
    rw [util.WithBugsnagNotify.cb_above notifier T entry calls h]
  · intro h
    rw [util.WithBugsnagNotify.cb_below notifier T entry calls h]

/-- The amended C7 at the threshold Error with a notifier that always fails: an Info entry
is below the threshold and the callback returns no error. -/
theorem WithBugsnagNotify_error_propagates_witness :
    (util.WithBugsnagNotify.cb (fun _ => some "bugsnag: delivery failed") util.LoggingLevelError
        ⟨util.LoggingLevelInfo, "m"⟩ []).1 = none :=
  (WithBugsnagNotify_error_propagates (fun _ => some "bugsnag: delivery failed")
    util.LoggingLevelError ⟨util.LoggingLevelInfo, "m"⟩ []).2 (by decide)

/-! ## Levels (`util.toZapLevel`) -/

/-- C8, at the level Fatal: the five levels of `util` are -1, 0, 1, 2, 3 in increasing
order and `toZapLevel` maps Debug, Info, Warn and Error to the sink's levels of the same
names, but it maps `LoggingLevelFatal` (3) to the sink's `DPanicLevel` (3) and not to its
`FatalLevel` (5); a threshold of `LoggingLevelFatal` therefore lets through the sink's
DPanic and Panic entries, which are below the sink's Fatal. -/
theorem toZapLevel_fatal_is_dpanic :
    (util.LoggingLevelDebug = -1 ∧ util.LoggingLevelInfo = 0 ∧ util.LoggingLevelWarn = 1
      ∧ util.LoggingLevelError = 2 ∧ util.LoggingLevelFatal = 3)
    ∧ (util.LoggingLevelDebug < util.LoggingLevelInfo
      ∧ util.LoggingLevelInfo < util.LoggingLevelWarn
      ∧ util.LoggingLevelWarn < util.LoggingLevelError
      ∧ util.LoggingLevelError < util.LoggingLevelFatal)
    ∧ (util.toZapLevel util.LoggingLevelDebug = zapcore.DebugLevel
      ∧ util.toZapLevel util.LoggingLevelInfo = zapcore.InfoLevel
      ∧ util.toZapLevel util.LoggingLevelWarn = zapcore.WarnLevel
      ∧ util.toZapLevel util.LoggingLevelError = zapcore.ErrorLevel)
    ∧ util.toZapLevel util.LoggingLevelFatal = zapcore.DPanicLevel
    ∧ util.toZapLevel util.LoggingLevelFatal ≠ zapcore.FatalLevel
    ∧ zapcore.Level.Enabled (util.toZapLevel util.LoggingLevelFatal) zapcore.DPanicLevel = true
    ∧ zapcore.Level.Enabled (util.toZapLevel util.LoggingLevelFatal) zapcore.PanicLevel = true
    ∧ zapcore.PanicLevel < zapcore.FatalLevel := by
  decide

end Kamuy
